import Mathlib

/-!
Verification of the pricing module
`examples/ecommerce-with-reference/reference/pricing.py`.

The module is three pure functions over numbers and flat records:
`calculate_total`, `apply_discount` and `validate_order`.  We embed them
over exact rationals (`ℚ`), with Python's `round(x, 2)` modelled as
round-half-to-even at two decimal places.  The user dict's
`loyaltyTier` key may be absent, in which case the lookup
`user['loyaltyTier']` raises `KeyError`; `calculate_total` is therefore
embedded as an `Except`-valued function.
-/

/-- A line item `{price: float, quantity: int}`.  Prices are exact
rationals; quantities are integers.  The code does not validate signs. -/
structure LineItem where
  price : ℚ
  quantity : ℤ
deriving DecidableEq

/-- The `loyaltyTier` slot of the user dict.  The key may be absent
(`user['loyaltyTier']` then raises `KeyError`), or present holding
either Python `None` or a string. -/
inductive TierField where
  | absent : TierField
  | value : Option String → TierField
deriving DecidableEq

/-- The user record `{loyaltyTier: str, state: str}`. -/
structure User where
  loyaltyTier : TierField
  state : String
deriving DecidableEq

/-- The result dict of `calculate_total`. -/
structure OrderSummary where
  subtotal : ℚ
  discount : ℚ
  tax : ℚ
  total : ℚ
deriving DecidableEq

deriving instance DecidableEq for Except

/-- Round-half-to-even to the nearest integer, as Python's built-in
`round` behaves on exact values. -/
def roundHalfEven (q : ℚ) : ℤ :=
  if Int.fract q = 1/2 then
    if ⌊q⌋ % 2 = 0 then ⌊q⌋ else ⌊q⌋ + 1
  else round q

/-- Python's `round(x, 2)`: round to two decimal places, ties to even. -/
def pyRound2 (q : ℚ) : ℚ :=
  (roundHalfEven (q * 100) : ℚ) / 100

/-- `roundHalfEven` is the identity on integers. -/
lemma roundHalfEven_intCast (n : ℤ) : roundHalfEven (n : ℚ) = n := by
  unfold roundHalfEven
  rw [Int.fract_intCast]
  norm_num

/-- `roundHalfEven` at a tie goes to the even neighbour. -/
lemma roundHalfEven_tie (n : ℤ) :
    roundHalfEven ((n : ℚ) + 1/2) = if n % 2 = 0 then n else n + 1 := by
  have hfr : Int.fract ((n : ℚ) + 1/2) = 1/2 := by
    rw [Int.fract_int_add]
    norm_num [Int.fract]
  have hfl : ⌊(n : ℚ) + 1/2⌋ = n := by
    rw [Int.floor_int_add]
    norm_num
  unfold roundHalfEven
  rw [hfr, hfl, if_pos rfl]

/-- Evaluation rule for `pyRound2` away from a tie, given the value in
hundredths. -/
lemma pyRound2_int (q : ℚ) (n : ℤ) (h : q * 100 = (n : ℚ)) :
    pyRound2 q = (n : ℚ) / 100 := by
  unfold pyRound2
  rw [h, roundHalfEven_intCast]

/-- Evaluation rule for `pyRound2` at a tie between two hundredths. -/
lemma pyRound2_tie (q : ℚ) (n : ℤ) (h : q * 100 = (n : ℚ) + 1/2) :
    pyRound2 q = ((if n % 2 = 0 then n else n + 1 : ℤ) : ℚ) / 100 := by
  unfold pyRound2
  rw [h, roundHalfEven_tie]

/-- `subtotal = sum(item['price'] * item['quantity'] for item in items)`
(pricing.py line 18). -/
def subtotal_of (items : List LineItem) : ℚ :=
  (items.map fun it => it.price * (it.quantity : ℚ)).sum

/-- `total_items = sum(item['quantity'] for item in items)`
(pricing.py line 22). -/
def total_items_of (items : List LineItem) : ℤ :=
  (items.map fun it => it.quantity).sum

/-- Volume discount: 10% off the subtotal when `total_items >= 10`
(pricing.py lines 21-24). -/
def volume_discount_of (items : List LineItem) : ℚ :=
  if 10 ≤ total_items_of items then subtotal_of items * (10/100) else 0

/-- The dict lookup `tier_discounts.get(tier, 0)` over
`{'bronze': 0.05, 'silver': 0.10, 'gold': 0.15}` (pricing.py lines
27-32); any other value, Python `None` included, yields 0. -/
def tier_discounts (tier : Option String) : ℚ :=
  if tier = some "bronze" then 5/100
  else if tier = some "silver" then 10/100
  else if tier = some "gold" then 15/100
  else 0

/-- `total_discount = volume_discount + loyalty_discount`
(pricing.py line 35). -/
def total_discount_of (items : List LineItem) (tier : Option String) : ℚ :=
  volume_discount_of items + subtotal_of items * tier_discounts tier

/-- The bronze entry of the tier dict. -/
lemma tier_discounts_eval_bronze : tier_discounts (some "bronze") = 5/100 := by
  unfold tier_discounts
  rw [if_pos rfl]

/-- The silver entry of the tier dict. -/
lemma tier_discounts_eval_silver : tier_discounts (some "silver") = 10/100 := by
  unfold tier_discounts
  rw [if_neg (by decide), if_pos rfl]

/-- The gold entry of the tier dict. -/
lemma tier_discounts_eval_gold : tier_discounts (some "gold") = 15/100 := by
  unfold tier_discounts
  rw [if_neg (by decide), if_neg (by decide), if_pos rfl]

/-- Any tier value outside the dict falls back to the default 0. -/
lemma tier_discounts_eval_other (t : Option String)
    (hb : t ≠ some "bronze") (hs : t ≠ some "silver") (hg : t ≠ some "gold") :
    tier_discounts t = 0 := by
  unfold tier_discounts
  rw [if_neg hb, if_neg hs, if_neg hg]

/-- State-specific default tax rate: 8% for CA, else 5%
(pricing.py line 40). -/
def default_tax_rate (state : String) : ℚ :=
  if state = "CA" then 8/100 else 5/100

/-- The CA branch of the default tax rate. -/
lemma default_tax_rate_ca : default_tax_rate "CA" = 8/100 := by
  unfold default_tax_rate
  rw [if_pos rfl]

/-- The non-CA branch of the default tax rate. -/
lemma default_tax_rate_of_ne (state : String) (h : state ≠ "CA") :
    default_tax_rate state = 5/100 := by
  unfold default_tax_rate
  rw [if_neg h]

/-- `calculate_total(items, user, tax_rate=None)` (pricing.py lines
5-53).  The `user['loyaltyTier']` lookup raises `KeyError` when the key
is absent; otherwise each returned field is independently rounded to
two decimals from un-rounded intermediates. -/
def calculate_total (items : List LineItem) (user : User)
    (tax_rate : Option ℚ) : Except String OrderSummary :=
  match user.loyaltyTier with
  | TierField.absent => Except.error "KeyError: loyaltyTier"
  | TierField.value tier =>
    let subtotal := subtotal_of items
    let total_discount := total_discount_of items tier
    let rate := match tax_rate with
      | some r => r
      | none => default_tax_rate user.state
    let taxable_amount := subtotal - total_discount
    let tax := taxable_amount * rate
    let total := subtotal - total_discount + tax
    Except.ok {
      subtotal := pyRound2 subtotal
      discount := pyRound2 total_discount
      tax := pyRound2 tax
      total := pyRound2 total }

/-- `apply_discount(amount, discount_percent)` (pricing.py lines
56-68). -/
def apply_discount (amount : ℚ) (discount_percent : ℚ) : ℚ :=
  let discount := amount * (discount_percent / 100)
  pyRound2 (amount - discount)

/-- `validate_order(order_total, minimum)` (pricing.py lines 71-82). -/
def validate_order (order_total : ℚ) (minimum : ℚ) : Bool :=
  decide (minimum ≤ order_total)

/-- `validate_order` with its default argument `minimum=10.00`. -/
def validate_order_default (order_total : ℚ) : Bool :=
  validate_order order_total 10

set_option maxRecDepth 4000 in
/-- C2: the scenario items=[{price:5, quantity:2}],
user={loyaltyTier:"bronze", state:"NY"}, no tax-rate override, returns
subtotal=10.00, discount=0.50, tax=0.48 and total=9.98. -/
theorem calculate_total_scenario_bronze_ny :
    calculate_total [⟨5, 2⟩] ⟨TierField.value (some "bronze"), "NY"⟩ none =
      Except.ok ⟨10, 1/2, 48/100, 998/100⟩ := by
  have hsub : subtotal_of [⟨5, 2⟩] = 10 := by norm_num [subtotal_of]
  have hti : total_items_of [⟨5, 2⟩] = 2 := by norm_num [total_items_of]
  have hvol : volume_discount_of [⟨5, 2⟩] = 0 := by
    rw [volume_discount_of, if_neg (by rw [hti]; decide)]
  have hdisc : total_discount_of [⟨5, 2⟩] (some "bronze") = 1/2 := by
    rw [total_discount_of, hvol, hsub, tier_discounts_eval_bronze]
    norm_num
  have hrate : default_tax_rate "NY" = 5/100 :=
    default_tax_rate_of_ne _ (by decide)
  simp only [calculate_total, hsub, hdisc, hrate, Except.ok.injEq,
    OrderSummary.mk.injEq]
  refine ⟨?_, ?_, ?_, ?_⟩
  · rw [pyRound2_int _ 1000 (by norm_num)]; norm_num
  · rw [pyRound2_int _ 50 (by norm_num)]; norm_num
  · rw [pyRound2_tie _ 47 (by norm_num)]; norm_num
  · rw [pyRound2_tie _ 997 (by norm_num)]; norm_num

set_option maxRecDepth 4000 in
/-- C5: the scenario items=[{price:10, quantity:12}],
user={loyaltyTier:"gold", state:"CA"}, no tax-rate override, returns
subtotal=120.00, discount=30.00, tax=7.20 and total=97.20. -/
theorem calculate_total_scenario_gold_ca :
    calculate_total [⟨10, 12⟩] ⟨TierField.value (some "gold"), "CA"⟩ none =
      Except.ok ⟨120, 30, 72/10, 972/10⟩ := by
  have hsub : subtotal_of [⟨10, 12⟩] = 120 := by norm_num [subtotal_of]
  have hti : total_items_of [⟨10, 12⟩] = 12 := by norm_num [total_items_of]
  have hvol : volume_discount_of [⟨10, 12⟩] = 12 := by
    rw [volume_discount_of, if_pos (by rw [hti]; decide), hsub]
    norm_num
  have hdisc : total_discount_of [⟨10, 12⟩] (some "gold") = 30 := by
    rw [total_discount_of, hvol, hsub, tier_discounts_eval_gold]
    norm_num
  simp only [calculate_total, hsub, hdisc, default_tax_rate_ca,
    Except.ok.injEq, OrderSummary.mk.injEq]
  refine ⟨?_, ?_, ?_, ?_⟩
  · rw [pyRound2_int _ 12000 (by norm_num)]; norm_num
  · rw [pyRound2_int _ 3000 (by norm_num)]; norm_num
  · rw [pyRound2_int _ 720 (by norm_num)]; norm_num
  · rw [pyRound2_int _ 9720 (by norm_num)]; norm_num

/-- The floor-plus-half form of a rational whose fractional part is a
half. -/
lemma eq_floor_add_half (q : ℚ) (h : Int.fract q = 1/2) :
    q = (⌊q⌋ : ℚ) + 1/2 := by
  have hq := Int.floor_add_fract q
  rw [h] at hq
  linarith

/-- The rounding error of `roundHalfEven` is at most a half. -/
lemma roundHalfEven_sub_abs (q : ℚ) :
    |(roundHalfEven q : ℚ) - q| ≤ 1/2 := by
  unfold roundHalfEven
  split_ifs with h1 h2
  · have hq := eq_floor_add_half q h1
    have : (⌊q⌋ : ℚ) - q = -(1/2) := by linarith
    rw [this, abs_le]
    norm_num
  · have hq := eq_floor_add_half q h1
    have : ((⌊q⌋ + 1 : ℤ) : ℚ) - q = 1/2 := by push_cast; linarith
    rw [this, abs_le]
    norm_num
  · rw [abs_sub_comm]
    exact abs_sub_round q

/-- Lower half of the `roundHalfEven` error bound. -/
lemma roundHalfEven_sub_le (q : ℚ) : (roundHalfEven q : ℚ) - q ≤ 1/2 :=
  (abs_le.mp (roundHalfEven_sub_abs q)).2

/-- Upper half of the `roundHalfEven` error bound. -/
lemma roundHalfEven_sub_ge (q : ℚ) : -(1/2) ≤ (roundHalfEven q : ℚ) - q :=
  (abs_le.mp (roundHalfEven_sub_abs q)).1

/-- `pyRound2` moves its argument by at most half a cent. -/
lemma pyRound2_bounds (q : ℚ) :
    q - 1/200 ≤ pyRound2 q ∧ pyRound2 q ≤ q + 1/200 := by
  have h1 := roundHalfEven_sub_le (q * 100)
  have h2 := roundHalfEven_sub_ge (q * 100)
  unfold pyRound2
  constructor <;> [nlinarith; nlinarith]

/-- The tier dict only ever yields one of its three rates or the
default 0. -/
lemma tier_discounts_cases (t : Option String) :
    tier_discounts t = 0 ∨ tier_discounts t = 5/100 ∨
    tier_discounts t = 10/100 ∨ tier_discounts t = 15/100 := by
  unfold tier_discounts
  split_ifs <;> norm_num

/-- Tier rates are nonnegative. -/
lemma tier_discounts_nonneg (t : Option String) : 0 ≤ tier_discounts t := by
  rcases tier_discounts_cases t with h | h | h | h <;> rw [h] <;> norm_num

/-- C8: `apply_discount` computes `round(amount - amount *
(discount_percent / 100), 2)` for every amount and percentage, with no
bounds checking; in particular `apply_discount(100, 10) = 90.00` and
`apply_discount(50, 0) = 50.00`. -/
theorem apply_discount_spec :
    (∀ a p : ℚ, apply_discount a p = pyRound2 (a - a * (p / 100))) ∧
    apply_discount 100 10 = 90 ∧ apply_discount 50 0 = 50 := by
  refine ⟨fun a p => rfl, ?_, ?_⟩
  · show pyRound2 (100 - 100 * (10 / 100)) = 90
    rw [pyRound2_int _ 9000 (by norm_num)]
    norm_num
  · show pyRound2 (50 - 50 * (0 / 100)) = 50
    rw [pyRound2_int _ 5000 (by norm_num)]
    norm_num

/-- C9: `validate_order` returns true exactly when the order total is
at least the minimum, with no rounding; the default minimum is 10.00,
so `validate_order(9.99)` is false and `validate_order(10.00)` is
true. -/
theorem validate_order_spec :
    (∀ t m : ℚ, validate_order t m = true ↔ m ≤ t) ∧
    (∀ t : ℚ, validate_order_default t = validate_order t 10) ∧
    validate_order_default (999/100) = false ∧
    validate_order_default 10 = true := by
  refine ⟨fun t m => by simp [validate_order], fun t => rfl, ?_, ?_⟩
  · have h : ¬ ((10 : ℚ) ≤ 999/100) := by norm_num
    simp [validate_order_default, validate_order, h]
  · simp [validate_order_default, validate_order]

/-- C10: the optional tax-rate override leaves the subtotal and
discount fields of `calculate_total` unchanged; it can only influence
tax and total. -/
theorem calculate_total_tax_rate_frame (items : List LineItem) (u : User)
    (r : ℚ) :
    ((calculate_total items u (some r)).map fun s => (s.subtotal, s.discount)) =
      ((calculate_total items u none).map fun s => (s.subtotal, s.discount)) := by
  cases h : u.loyaltyTier <;> simp [calculate_total, h, Except.map]

/-- C1 counterexample: with the `loyaltyTier` key absent from the user
dict, `calculate_total` raises `KeyError` instead of returning an
OrderSummary, already on an empty items list. -/
theorem calculate_total_missing_tier_raises :
    calculate_total [] ⟨TierField.absent, "NY"⟩ none =
      Except.error "KeyError: loyaltyTier" ∧
    ¬ ∃ s, calculate_total [] ⟨TierField.absent, "NY"⟩ none = Except.ok s := by
  refine ⟨rfl, ?_⟩
  rintro ⟨s, hs⟩
  simp [calculate_total] at hs

/-- C1 amended: whenever the `loyaltyTier` key is present — holding
`None` or any string outside bronze/silver/gold — the loyalty rate is
0, the call returns a normal OrderSummary, and its discount is the
volume discount alone. -/
theorem calculate_total_unknown_tier_defaults (items : List LineItem)
    (u : User) (o : Option ℚ) (v : Option String)
    (hv : u.loyaltyTier = TierField.value v)
    (hb : v ≠ some "bronze") (hs : v ≠ some "silver") (hg : v ≠ some "gold") :
    tier_discounts v = 0 ∧
    ∃ s, calculate_total items u o = Except.ok s ∧
      s.discount = pyRound2 (volume_discount_of items) := by
  have ht := tier_discounts_eval_other v hb hs hg
  refine ⟨ht, ?_⟩
  have hd : total_discount_of items v = volume_discount_of items := by
    rw [total_discount_of, ht]
    ring
  simp only [calculate_total, hv]
  exact ⟨_, rfl, by simp [hd]⟩

/-- C1 witness: a user whose tier slot holds Python `None`. -/
theorem calculate_total_unknown_tier_defaults_witness :
    tier_discounts none = 0 ∧
    ∃ s, calculate_total [⟨5, 2⟩] ⟨TierField.value none, "NY"⟩ none =
      Except.ok s ∧
      s.discount = pyRound2 (volume_discount_of [⟨5, 2⟩]) :=
  calculate_total_unknown_tier_defaults [⟨5, 2⟩]
    ⟨TierField.value none, "NY"⟩ none none rfl
    (by decide) (by decide) (by decide)

/-- C6: with fewer than 10 items in total and a present loyalty tier
matching none of bronze/silver/gold, the returned discount is 0. -/
theorem calculate_total_discount_zero (items : List LineItem) (u : User)
    (o : Option ℚ) (v : Option String)
    (hv : u.loyaltyTier = TierField.value v)
    (hq : total_items_of items < 10)
    (hb : v ≠ some "bronze") (hs : v ≠ some "silver") (hg : v ≠ some "gold") :
    ∃ s, calculate_total items u o = Except.ok s ∧ s.discount = 0 := by
  have hd : total_discount_of items v = 0 := by
    rw [total_discount_of, volume_discount_of, if_neg (by omega),
      tier_discounts_eval_other v hb hs hg]
    ring
  have hz : pyRound2 0 = 0 := by
    rw [pyRound2_int _ 0 (by norm_num)]
    norm_num
  simp only [calculate_total, hv]
  exact ⟨_, rfl, by simp [hd, hz]⟩

/-- C6 witness: two items, an unrecognized tier string. -/
theorem calculate_total_discount_zero_witness :
    ∃ s, calculate_total [⟨5, 2⟩] ⟨TierField.value (some "platinum"), "NY"⟩
      none = Except.ok s ∧ s.discount = 0 :=
  calculate_total_discount_zero [⟨5, 2⟩]
    ⟨TierField.value (some "platinum"), "NY"⟩ none (some "platinum") rfl
    (by norm_num [total_items_of]) (by decide) (by decide) (by decide)

/-- C7: with no override the tax rate is 0.08 exactly for state "CA"
and 0.05 for every other state, and a supplied override is used as the
tax rate regardless of state. -/
theorem calculate_total_tax_rate_selection (items : List LineItem) (u : User) :
    calculate_total items u none =
      calculate_total items u (some (if u.state = "CA" then 8/100 else 5/100)) ∧
    (∀ r : ℚ, ∀ v : Option String, u.loyaltyTier = TierField.value v →
      calculate_total items u (some r) = Except.ok {
        subtotal := pyRound2 (subtotal_of items)
        discount := pyRound2 (total_discount_of items v)
        tax := pyRound2 ((subtotal_of items - total_discount_of items v) * r)
        total := pyRound2 (subtotal_of items - total_discount_of items v +
          (subtotal_of items - total_discount_of items v) * r) }) := by
  constructor
  · cases h : u.loyaltyTier <;> simp [calculate_total, h, default_tax_rate]
  · intro r v hv
    simp [calculate_total, hv]

/-- C7 witness: the override part applied at a concrete call. -/
theorem calculate_total_tax_rate_selection_witness :
    calculate_total [⟨5, 2⟩] ⟨TierField.value (some "bronze"), "NY"⟩
      (some (1/2)) = Except.ok {
        subtotal := pyRound2 (subtotal_of [⟨5, 2⟩])
        discount := pyRound2 (total_discount_of [⟨5, 2⟩] (some "bronze"))
        tax := pyRound2 ((subtotal_of [⟨5, 2⟩] -
          total_discount_of [⟨5, 2⟩] (some "bronze")) * (1/2))
        total := pyRound2 (subtotal_of [⟨5, 2⟩] -
          total_discount_of [⟨5, 2⟩] (some "bronze") +
          (subtotal_of [⟨5, 2⟩] -
            total_discount_of [⟨5, 2⟩] (some "bronze")) * (1/2)) } :=
  (calculate_total_tax_rate_selection [⟨5, 2⟩]
    ⟨TierField.value (some "bronze"), "NY"⟩).2 (1/2) (some "bronze") rfl

/-- C3 counterexample: with a negative price the subtotal is negative
and the gold loyalty discount drags the discount field strictly below
`subtotal * 0.10`: at items=[{price:-10, quantity:10}] (total quantity
10) the call returns subtotal=-100 and discount=-25, yet
`-100 * 0.10 = -10 > -25`. -/
theorem calculate_total_volume_discount_cx :
    (10 ≤ total_items_of [⟨-10, 10⟩]) ∧
    calculate_total [⟨-10, 10⟩] ⟨TierField.value (some "gold"), "NY"⟩ none =
      Except.ok ⟨-100, -25, -15/4, -315/4⟩ ∧
    ¬ ((-100 : ℚ) * (10/100) ≤ -25) := by
  refine ⟨by norm_num [total_items_of], ?_, by norm_num⟩
  have hsub : subtotal_of [⟨-10, 10⟩] = -100 := by norm_num [subtotal_of]
  have hti : total_items_of [⟨-10, 10⟩] = 10 := by norm_num [total_items_of]
  have hvol : volume_discount_of [⟨-10, 10⟩] = -10 := by
    rw [volume_discount_of, if_pos (by rw [hti]), hsub]
    norm_num
  have hdisc : total_discount_of [⟨-10, 10⟩] (some "gold") = -25 := by
    rw [total_discount_of, hvol, hsub, tier_discounts_eval_gold]
    norm_num
  have hrate : default_tax_rate "NY" = 5/100 :=
    default_tax_rate_of_ne _ (by decide)
  simp only [calculate_total, hsub, hdisc, hrate, Except.ok.injEq,
    OrderSummary.mk.injEq]
  refine ⟨?_, ?_, ?_, ?_⟩
  · rw [pyRound2_int _ (-10000) (by norm_num)]; norm_num
  · rw [pyRound2_int _ (-2500) (by norm_num)]; norm_num
  · rw [pyRound2_int _ (-375) (by norm_num)]; norm_num
  · rw [pyRound2_int _ (-7875) (by norm_num)]; norm_num

/-- C3 amended: for a total quantity of at least 10 and a nonnegative
subtotal, the un-rounded total discount is at least `subtotal * 0.10`,
and the returned discount field is at least `subtotal * 0.10` minus the
half-cent rounding slack. -/
theorem calculate_total_volume_discount_lb (items : List LineItem)
    (u : User) (o : Option ℚ) (v : Option String)
    (hv : u.loyaltyTier = TierField.value v)
    (hq : 10 ≤ total_items_of items) (hsub : 0 ≤ subtotal_of items) :
    subtotal_of items * (10/100) ≤ total_discount_of items v ∧
    ∃ s, calculate_total items u o = Except.ok s ∧
      subtotal_of items * (10/100) - 1/200 ≤ s.discount := by
  have hvol : volume_discount_of items = subtotal_of items * (10/100) := by
    rw [volume_discount_of, if_pos hq]
  have hloy : 0 ≤ subtotal_of items * tier_discounts v :=
    mul_nonneg hsub (tier_discounts_nonneg v)
  have hd : subtotal_of items * (10/100) ≤ total_discount_of items v := by
    rw [total_discount_of, hvol]
    linarith
  refine ⟨hd, ?_⟩
  simp only [calculate_total, hv]
  refine ⟨_, rfl, ?_⟩
  have hb := (pyRound2_bounds (total_discount_of items v)).1
  show subtotal_of items * (10/100) - 1/200 ≤
    pyRound2 (total_discount_of items v)
  linarith

/-- C3 witness: twelve gold items at a positive price. -/
theorem calculate_total_volume_discount_lb_witness :
    subtotal_of [⟨10, 12⟩] * (10/100) ≤
      total_discount_of [⟨10, 12⟩] (some "gold") ∧
    ∃ s, calculate_total [⟨10, 12⟩] ⟨TierField.value (some "gold"), "CA"⟩
      none = Except.ok s ∧
      subtotal_of [⟨10, 12⟩] * (10/100) - 1/200 ≤ s.discount :=
  calculate_total_volume_discount_lb [⟨10, 12⟩]
    ⟨TierField.value (some "gold"), "CA"⟩ none (some "gold") rfl
    (by norm_num [total_items_of]) (by norm_num [subtotal_of])

/-- If `roundHalfEven` rounds up by exactly a half, the argument was a
tie with odd floor. -/
lemma roundHalfEven_err_eq_half (q : ℚ)
    (h : (roundHalfEven q : ℚ) - q = 1/2) :
    Int.fract q = 1/2 ∧ ⌊q⌋ % 2 = 1 := by
  unfold roundHalfEven at h
  split_ifs at h with h1 h2
  · exfalso
    have hq := eq_floor_add_half q h1
    linarith
  · exact ⟨h1, by omega⟩
  · exfalso
    have hq2 : q = ((round q - 1 : ℤ) : ℚ) + 1/2 := by push_cast; linarith
    have : Int.fract q = 1/2 := by
      rw [hq2, Int.fract_int_add]
      norm_num [Int.fract]
    exact h1 this

/-- If `roundHalfEven` rounds down by exactly a half, the argument was
a tie with even floor. -/
lemma roundHalfEven_err_eq_neg_half (q : ℚ)
    (h : (roundHalfEven q : ℚ) - q = -(1/2)) :
    Int.fract q = 1/2 ∧ ⌊q⌋ % 2 = 0 := by
  unfold roundHalfEven at h
  split_ifs at h with h1 h2
  · exact ⟨h1, h2⟩
  · exfalso
    have hq := eq_floor_add_half q h1
    push_cast at h
    linarith
  · exfalso
    have hq2 : q = ((round q : ℤ) : ℚ) + 1/2 := by linarith
    have : Int.fract q = 1/2 := by
      rw [hq2, Int.fract_int_add]
      norm_num [Int.fract]
    exact h1 this

/-- When a subtotal `x` (in cents) and its discount `x * R` (in cents)
both land on a tie, the discount rates of the pricing code force the
two floors to have the same parity. -/
lemma tie_rate_parity (x R : ℚ)
    (hR : R = 0 ∨ R = 5/100 ∨ R = 10/100 ∨ R = 15/100 ∨
      R = 20/100 ∨ R = 25/100)
    (hx : Int.fract x = 1/2) (hxR : Int.fract (x * R) = 1/2) :
    ⌊x⌋ % 2 = ⌊x * R⌋ % 2 := by
  have hm := eq_floor_add_half x hx
  have hn := eq_floor_add_half (x * R) hxR
  rcases hR with h | h | h | h | h | h <;> subst h
  · exfalso
    rw [mul_zero, Int.fract_zero] at hxR
    norm_num at hxR
  · have key : (2 * (⌊x⌋ : ℚ) + 1) = 40 * (⌊x * (5/100)⌋ : ℚ) + 20 := by
      nlinarith [hm, hn]
    have key2 : 2 * ⌊x⌋ + 1 = 40 * ⌊x * (5/100)⌋ + 20 := by exact_mod_cast key
    omega
  · have key : (2 * (⌊x⌋ : ℚ) + 1) = 20 * (⌊x * (10/100)⌋ : ℚ) + 10 := by
      nlinarith [hm, hn]
    have key2 : 2 * ⌊x⌋ + 1 = 20 * ⌊x * (10/100)⌋ + 10 := by exact_mod_cast key
    omega
  · have key : (6 * (⌊x⌋ : ℚ) + 3) = 40 * (⌊x * (15/100)⌋ : ℚ) + 20 := by
      nlinarith [hm, hn]
    have key2 : 6 * ⌊x⌋ + 3 = 40 * ⌊x * (15/100)⌋ + 20 := by exact_mod_cast key
    omega
  · have key : (2 * (⌊x⌋ : ℚ) + 1) = 10 * (⌊x * (20/100)⌋ : ℚ) + 5 := by
      nlinarith [hm, hn]
    have key2 : 2 * ⌊x⌋ + 1 = 10 * ⌊x * (20/100)⌋ + 5 := by exact_mod_cast key
    omega
  · have key : (2 * (⌊x⌋ : ℚ) + 1) = 8 * (⌊x * (25/100)⌋ : ℚ) + 4 := by
      nlinarith [hm, hn]
    have key2 : 2 * ⌊x⌋ + 1 = 8 * ⌊x * (25/100)⌋ + 4 := by exact_mod_cast key
    omega

/-- Rounding the raw total is within one cent of combining the three
independently rounded fields, for every discount rate the code can
produce: the four rounding errors cannot all align at a tie. -/
lemma roundHalfEven_combine (x z R : ℚ)
    (hR : R = 0 ∨ R = 5/100 ∨ R = 10/100 ∨ R = 15/100 ∨
      R = 20/100 ∨ R = 25/100) :
    |(roundHalfEven (x - x * R + z) : ℚ) -
      ((roundHalfEven x : ℚ) - (roundHalfEven (x * R) : ℚ) +
        (roundHalfEven z : ℚ))| ≤ 1 := by
  have ha1 := roundHalfEven_sub_le (x - x * R + z)
  have ha2 := roundHalfEven_sub_ge (x - x * R + z)
  have hb1 := roundHalfEven_sub_le x
  have hb2 := roundHalfEven_sub_ge x
  have hc1 := roundHalfEven_sub_le (x * R)
  have hc2 := roundHalfEven_sub_ge (x * R)
  have he1 := roundHalfEven_sub_le z
  have he2 := roundHalfEven_sub_ge z
  set a := roundHalfEven (x - x * R + z) with haDef
  set b := roundHalfEven x with hbDef
  set c := roundHalfEven (x * R) with hcDef
  set e := roundHalfEven z with heDef
  suffices hInt : |a - b + c - e| ≤ (1 : ℤ) by
    have hcast : (a : ℚ) - ((b : ℚ) - (c : ℚ) + (e : ℚ)) =
        ((a - b + c - e : ℤ) : ℚ) := by push_cast; ring
    rw [hcast]
    calc |((a - b + c - e : ℤ) : ℚ)| = ((|a - b + c - e| : ℤ) : ℚ) := by
          rw [Int.cast_abs]
      _ ≤ ((1 : ℤ) : ℚ) := by exact_mod_cast hInt
      _ = 1 := by norm_num
  by_contra hcon
  push_neg at hcon
  have h2 : 2 ≤ |a - b + c - e| := by omega
  rcases le_abs.mp h2 with hca | hca
  · have hDQ : (2 : ℚ) ≤ (a : ℚ) - b + c - e := by exact_mod_cast hca
    have hea : (a : ℚ) - (x - x * R + z) = 1/2 := by linarith
    have heb : (b : ℚ) - x = -(1/2) := by linarith
    have hec : (c : ℚ) - x * R = 1/2 := by linarith
    obtain ⟨hfx, hpx⟩ := roundHalfEven_err_eq_neg_half x heb
    obtain ⟨hfxR, hpxR⟩ := roundHalfEven_err_eq_half (x * R) hec
    have hpar := tie_rate_parity x R hR hfx hfxR
    omega
  · have hDQ : (a : ℚ) - b + c - e ≤ -2 := by
      have : (2 : ℚ) ≤ -((a : ℚ) - b + c - e) := by exact_mod_cast hca
      linarith
    have hea : (a : ℚ) - (x - x * R + z) = -(1/2) := by linarith
    have heb : (b : ℚ) - x = 1/2 := by linarith
    have hec : (c : ℚ) - x * R = -(1/2) := by linarith
    obtain ⟨hfx, hpx⟩ := roundHalfEven_err_eq_half x heb
    obtain ⟨hfxR, hpxR⟩ := roundHalfEven_err_eq_neg_half (x * R) hec
    have hpar := tie_rate_parity x R hR hfx hfxR
    omega

/-- `pyRound2` of a combination of already rounded values is an exact
number of cents. -/
lemma pyRound2_sub_add (q1 q2 q3 : ℚ) :
    pyRound2 (pyRound2 q1 - pyRound2 q2 + pyRound2 q3) =
      ((roundHalfEven (q1 * 100) - roundHalfEven (q2 * 100) +
        roundHalfEven (q3 * 100) : ℤ) : ℚ) / 100 := by
  unfold pyRound2
  have harg : ((roundHalfEven (q1 * 100) : ℚ) / 100 -
      (roundHalfEven (q2 * 100) : ℚ) / 100 +
      (roundHalfEven (q3 * 100) : ℚ) / 100) * 100 =
      ((roundHalfEven (q1 * 100) - roundHalfEven (q2 * 100) +
        roundHalfEven (q3 * 100) : ℤ) : ℚ) := by
    push_cast
    ring
  rw [harg, roundHalfEven_intCast]

/-- Rounding consistency of the four output fields, abstracted over the
discount rate relation `q2 = q1 * R`. -/
lemma pyRound2_consistency (q1 q2 q3 R : ℚ)
    (hR : R = 0 ∨ R = 5/100 ∨ R = 10/100 ∨ R = 15/100 ∨
      R = 20/100 ∨ R = 25/100)
    (hq2 : q2 = q1 * R) :
    |pyRound2 (q1 - q2 + q3) -
      pyRound2 (pyRound2 q1 - pyRound2 q2 + pyRound2 q3)| ≤ 1/100 := by
  rw [pyRound2_sub_add]
  have h1 : pyRound2 (q1 - q2 + q3) =
      (roundHalfEven ((q1 * 100) - (q1 * 100) * R + (q3 * 100)) : ℚ) / 100 := by
    unfold pyRound2
    have : (q1 - q2 + q3) * 100 = (q1 * 100) - (q1 * 100) * R + (q3 * 100) := by
      rw [hq2]; ring
    rw [this]
  have h2 : roundHalfEven (q2 * 100) = roundHalfEven ((q1 * 100) * R) := by
    have : q2 * 100 = (q1 * 100) * R := by rw [hq2]; ring
    rw [this]
  rw [h1, h2]
  have hcore := roundHalfEven_combine (q1 * 100) (q3 * 100) R hR
  set a := roundHalfEven ((q1 * 100) - (q1 * 100) * R + (q3 * 100))
  set b := roundHalfEven (q1 * 100)
  set c := roundHalfEven ((q1 * 100) * R)
  set e := roundHalfEven (q3 * 100)
  have heq : (a : ℚ) / 100 - ((b - c + e : ℤ) : ℚ) / 100 =
      ((a : ℚ) - ((b : ℚ) - (c : ℚ) + (e : ℚ))) / 100 := by
    push_cast
    ring
  rw [heq, abs_div]
  have h100 : |(100 : ℚ)| = 100 := by norm_num
  rw [h100]
  linarith

/-- Every total discount the code computes is the subtotal times one of
six rates: 0%, 5%, 10%, 15%, 20% or 25%. -/
lemma total_discount_eq_rate (items : List LineItem) (v : Option String) :
    ∃ R : ℚ, (R = 0 ∨ R = 5/100 ∨ R = 10/100 ∨ R = 15/100 ∨
      R = 20/100 ∨ R = 25/100) ∧
      total_discount_of items v = subtotal_of items * R := by
  refine ⟨(if 10 ≤ total_items_of items then (10 : ℚ)/100 else 0) +
    tier_discounts v, ?_, ?_⟩
  · rcases tier_discounts_cases v with h | h | h | h <;>
      split_ifs <;> rw [h] <;> norm_num
  · rw [total_discount_of, volume_discount_of]
    split_ifs <;> ring

/-- C4: whenever `calculate_total` returns an OrderSummary, its total
field differs from `round(subtotal - discount + tax, 2)` over the
returned (independently rounded) fields by at most 0.01. -/
theorem calculate_total_total_consistent (items : List LineItem) (u : User)
    (o : Option ℚ) (s : OrderSummary)
    (h : calculate_total items u o = Except.ok s) :
    |s.total - pyRound2 (s.subtotal - s.discount + s.tax)| ≤ 1/100 := by
  obtain ⟨v, hv⟩ : ∃ v, u.loyaltyTier = TierField.value v := by
    cases hu : u.loyaltyTier
    · simp [calculate_total, hu] at h
    · exact ⟨_, rfl⟩
  simp only [calculate_total, hv, Except.ok.injEq] at h
  subst h
  obtain ⟨R, hRmem, hdR⟩ := total_discount_eq_rate items v
  dsimp only
  exact pyRound2_consistency _ _ _ R hRmem hdR

/-- C4 witness: the empty order with a `None` tier. -/
theorem calculate_total_total_consistent_witness :
    |OrderSummary.total ⟨0, 0, 0, 0⟩ -
      pyRound2 (OrderSummary.subtotal ⟨0, 0, 0, 0⟩ -
        OrderSummary.discount ⟨(0 : ℚ), 0, 0, 0⟩ +
        OrderSummary.tax ⟨0, 0, 0, 0⟩)| ≤ 1/100 :=
  calculate_total_total_consistent [] ⟨TierField.value none, "NY"⟩ none
    ⟨0, 0, 0, 0⟩ (by
      have hz : pyRound2 0 = 0 := by
        rw [pyRound2_int _ 0 (by norm_num)]
        norm_num
      simp [calculate_total, subtotal_of, total_items_of,
        volume_discount_of, total_discount_of, tier_discounts,
        default_tax_rate, hz])
